import Mathlib

/-!
Verification of displayctl (`src/displayctl/cli.py`), a tool that saves and
restores GNOME monitor configurations over D-Bus.

The Python source is shallowly embedded below.  D-Bus payload values are
modelled by `DVal`; property dictionaries by association lists; payloads that
may fail Python-level unpacking or `int()`/`float()`/`dict()` conversion are
modelled by `Raw*` inductives with an explicit `malformed` constructor.
Floating-point fields (`scale`, `refresh_rate`, ...) are modelled by `Rat`;
no claim computes with them, they are only carried around.
Remote D-Bus calls themselves are out of scope: the model treats
`GetCurrentState` input as a parameter and records outgoing calls as effects.
-/

namespace Displayctl

/-- A D-Bus value stored in a properties dictionary. -/
inductive DVal where
  | bool (b : Bool)
  | int (n : Int)
  | str (s : String)
deriving DecidableEq

/-- Python truthiness of a property value, as used by
`if mm["properties"]["is-current"]:` in `get_mode_for_connector`. -/
def DVal.truthy : DVal → Bool
  | .bool b => b
  | .int n => n != 0
  | .str s => s != ""

/-- A properties dictionary (Python `dict`); keys are unique in practice,
lookups take the first binding. -/
abbrev Props := List (String × DVal)

/-- Parsed display mode (`parsed_mode` in `_parse_monitors`). -/
structure Mode where
  id : String
  width : Nat
  height : Nat
  refresh_rate : Rat
  preferred_scale : Rat
  supported_scales : List Rat
  properties : Props
deriving DecidableEq

/-- Parsed physical monitor (`parsed_monitor` in `_parse_monitors`). -/
structure Monitor where
  connector : String
  modes : List Mode
  properties : Props
deriving DecidableEq

/-- One `(connector, mode_id)` entry of a logical monitor
(`parsed_logical_monitor['monitors']` element).  `mode_id` is `none` when
`get_mode_for_connector` found no current mode (serialized as JSON null).
`properties` comes from `monitor.get('properties', {})` on the apply path;
capture always writes entries without it, so capture records `[]`. -/
structure MonitorRef where
  connector : String
  mode_id : Option String
  properties : Props
deriving DecidableEq

/-- Parsed logical monitor (`parsed_logical_monitor`). -/
structure LogicalMonitor where
  x : Int
  y : Int
  scale : Rat
  transform : Nat
  primary : Bool
  monitors : List MonitorRef
  properties : Props
deriving DecidableEq

/-- The dictionary returned by `get_current_state` / stored as a named JSON
config file. -/
structure Snapshot where
  serial : Nat
  monitors : List Monitor
  logical_monitors : List LogicalMonitor
  properties : Props
deriving DecidableEq

/-! ## Raw D-Bus payloads (inputs to the parsing layer)

A `malformed` constructor stands for a payload whose Python-level unpacking
or conversion (`tuple` unpack, `int()`, `float()`, `dict()`) raises. -/

/-- Raw properties payload as handed to `_safe_dict_conversion` or `dict()`:
either convertible to a dictionary or malformed. -/
inductive RawProps where
  | valid (props : Props)
  | malformed
deriving DecidableEq

/-- Raw mode tuple.  `malformed` covers a failed unpack or a failed
`int(width)` / `int(height)` / `str(mode_id)` / `float(...)` conversion:
the required fields are unusable. -/
inductive RawMode where
  | valid (id : String) (width height : Nat) (refresh_rate preferred_scale : Rat)
      (supported_scales : List Rat) (properties : RawProps)
  | malformed
deriving DecidableEq

/-- Raw monitor triple `(data1, modes, properties)`.  `malformed` covers a
failed unpack of the triple or of `data1` (so no connector is available). -/
inductive RawMonitor where
  | valid (connector : String) (modes : List RawMode) (properties : RawProps)
  | malformed
deriving DecidableEq

/-- Raw `monitor_spec` inside a logical monitor: `malformed` covers a failed
`connector, _vendor, _product, _serial = monitor_spec` unpack. -/
inductive RawSpec where
  | valid (connector : String)
  | malformed
deriving DecidableEq

/-- Raw logical monitor tuple.  `malformed` covers a failed unpack of the
seven-tuple or a failed `int()`/`float()`/`bool()` conversion. -/
inductive RawLogicalMonitor where
  | valid (x y : Int) (scale : Rat) (transform : Nat) (primary : Bool)
      (specs : List RawSpec) (properties : RawProps)
  | malformed
deriving DecidableEq

/-! ## Parsing layer (`_safe_dict_conversion`, `_parse_monitors`,
`get_mode_for_connector`, `_parse_logical_monitors`, `get_current_state`) -/

/-- `_safe_dict_conversion`: convert a properties payload to a dictionary,
substituting an empty dictionary when conversion raises. -/
def safe_dict_conversion : RawProps → Props
  | .valid p => p
  | .malformed => []

/-- Plain `dict(properties)` (used for the top-level properties in
`get_current_state`): conversion failure propagates as an exception. -/
def dict_conversion : RawProps → Except String Props
  | .valid p => .ok p
  | .malformed => .error "TypeError"

/-- Body of the mode loop in `_parse_monitors`: a malformed mode tuple
raises (failed unpack or `int()` conversion aborts parsing); properties go
through `_safe_dict_conversion`. -/
def parseMode : RawMode → Except String Mode
  | .malformed => .error "ValueError"
  | .valid i w h rr ps ss p => .ok ⟨i, w, h, rr, ps, ss, safe_dict_conversion p⟩

/-- The mode loop of `_parse_monitors` over one monitor's mode list. -/
def parseModes : List RawMode → Except String (List Mode)
  | [] => .ok []
  | rm :: rest => do
    let m ← parseMode rm
    let ms ← parseModes rest
    .ok (m :: ms)

/-- Body of the monitor loop in `_parse_monitors`. -/
def parseMonitor : RawMonitor → Except String Monitor
  | .malformed => .error "ValueError"
  | .valid c rms p => do
    let ms ← parseModes rms
    .ok ⟨c, ms, safe_dict_conversion p⟩

/-- `_parse_monitors`: any raised exception aborts the whole parse. -/
def parseMonitors : List RawMonitor → Except String (List Monitor)
  | [] => .ok []
  | rm :: rest => do
    let m ← parseMonitor rm
    let ms ← parseMonitors rest
    .ok (m :: ms)

/-- Inner loop of `get_mode_for_connector` over one monitor's modes:
`mm["properties"]["is-current"]` raises `KeyError` when the key is absent;
the first truthy mode's id is returned. -/
def findCurrentMode : List Mode → Except String (Option String)
  | [] => .ok none
  | m :: ms =>
    match m.properties.lookup "is-current" with
    | none => .error "KeyError"
    | some v => if v.truthy then .ok (some m.id) else findCurrentMode ms

/-- `get_mode_for_connector`: scans the whole monitor list; for every monitor
with the matching connector it scans that monitor's modes, returning the
first mode flagged current; absent a hit it falls through to later monitors
and finally returns `None`. -/
def get_mode_for_connector (connector : String) : List Monitor → Except String (Option String)
  | [] => .ok none
  | m :: ms =>
    if m.connector = connector then
      match findCurrentMode m.modes with
      | .error e => .error e
      | .ok (some i) => .ok (some i)
      | .ok none => get_mode_for_connector connector ms
    else get_mode_for_connector connector ms

/-- The `monitor_spec` loop of `_parse_logical_monitors`: a malformed spec is
caught (`IndexError, ValueError, TypeError`), a warning is printed and the
entry is skipped; a `KeyError` escaping `get_mode_for_connector` is NOT in
that tuple and propagates. -/
def parseSpecs (monitors : List Monitor) : List RawSpec → Except String (List MonitorRef)
  | [] => .ok []
  | .malformed :: rest => parseSpecs monitors rest
  | .valid c :: rest => do
    let mid ← get_mode_for_connector c monitors
    let tail ← parseSpecs monitors rest
    .ok (⟨c, mid, []⟩ :: tail)

/-- Body of the logical-monitor loop in `_parse_logical_monitors`. -/
def parseLogicalMonitor (monitors : List Monitor) : RawLogicalMonitor →
    Except String LogicalMonitor
  | .malformed => .error "ValueError"
  | .valid x y sc t pr specs p => do
    let refs ← parseSpecs monitors specs
    .ok ⟨x, y, sc, t, pr, refs, safe_dict_conversion p⟩

/-- `_parse_logical_monitors`. -/
def parseLogicalMonitors (monitors : List Monitor) :
    List RawLogicalMonitor → Except String (List LogicalMonitor)
  | [] => .ok []
  | rlm :: rest => do
    let lm ← parseLogicalMonitor monitors rlm
    let lms ← parseLogicalMonitors monitors rest
    .ok (lm :: lms)

/-- `get_current_state` given the raw `GetCurrentState` reply
`(serial, monitors, logical_monitors, properties)`: parse monitors, then
logical monitors (annotating each entry with the currently active mode id),
then convert the top-level properties with plain `dict()`.  Any exception
escapes to the caller (capture fails as a whole). -/
def get_current_state (serial : Nat) (rawMonitors : List RawMonitor)
    (rawLogical : List RawLogicalMonitor) (rawProps : RawProps) :
    Except String Snapshot := do
  let monitors ← parseMonitors rawMonitors
  let logical ← parseLogicalMonitors monitors rawLogical
  let props ← dict_conversion rawProps
  .ok ⟨serial, monitors, logical, props⟩

/-! ## Reconciler / apply layer (`_apply_config`) -/

/-- One wire-format `monitor_spec` tuple `(connector, mode_id, properties)`
appended to `monitor_specs`. -/
structure MonitorSpec where
  connector : String
  mode_id : Option String
  properties : Props
deriving DecidableEq

/-- One wire-format logical-monitor tuple
`(x, y, scale, transform, primary, monitor_specs)`. -/
structure LogicalMonitorSpec where
  x : Int
  y : Int
  scale : Rat
  transform : Nat
  primary : Bool
  monitor_specs : List MonitorSpec
deriving DecidableEq

/-- The outgoing `ApplyMonitorsConfig(serial, method, logical_monitors,
properties)` call. -/
structure ApplyRequest where
  serial : Nat
  method : Nat
  logical_monitors : List LogicalMonitorSpec
  properties : Props
deriving DecidableEq

/-- Outcome of `_apply_config` after the live state has been queried:
either the request is sent, or the function prints a warning and returns
early (missing monitors, or no suitable alternative mode for a connector). -/
inductive ApplyResult where
  | applied (req : ApplyRequest)
  | missingMonitors (missing : List String)
  | noAlternative (connector : String)
deriving DecidableEq

/-- The dictionary comprehension
`current_monitors = {m['connector']: m for m in current_state['monitors']}`
followed by `.get(connector)`: on duplicate connectors the last entry wins. -/
def lookupMonitor (mons : List Monitor) (c : String) : Option Monitor :=
  mons.foldl (fun acc m => if m.connector = c then some m else acc) none

/-- The set `config_monitors` of connectors referenced by the config's
logical monitors (first occurrences, deduplicated). -/
def referencedConnectors (config : Snapshot) : List String :=
  (config.logical_monitors.flatMap (fun lm => lm.monitors.map (·.connector))).dedup

/-- `missing_monitors = config_monitors - set(current_monitors.keys())`. -/
def missingMonitorsOf (config current : Snapshot) : List String :=
  (referencedConnectors config).filter
    (fun c => ¬ current.monitors.any (fun m => m.connector = c))

/-- The `saved_mode` search in `_apply_config`: nested scan over the saved
config's logical monitors (any entry with the right connector enables the
inner scan), then over `config['monitors']`; within one matching monitor the
first mode with the sought id wins (`break` leaves only the innermost loop),
but a later matching monitor's hit overwrites an earlier one. -/
def findSavedMode (config : Snapshot) (connector : String) (mode_id : Option String) :
    Option Mode :=
  if config.logical_monitors.any
      (fun lm => lm.monitors.any (fun r => r.connector = connector)) then
    config.monitors.foldl
      (fun acc cm =>
        if cm.connector = connector then
          match cm.modes.find? (fun m => some m.id = mode_id) with
          | some m => some m
          | none => acc
        else acc)
      none
  else none

/-- Body of the `monitor` loop in `_apply_config`: validate one
`(connector, mode_id)` entry against the live monitors, substituting a
same-resolution mode when the id is stale, passing the id through when no
saved mode is on record, and aborting (`return`) when a saved mode exists
but no current mode matches its resolution. -/
def reconcileRef (config current : Snapshot) (ref : MonitorRef) :
    Except String MonitorSpec :=
  match lookupMonitor current.monitors ref.connector with
  | none => .ok ⟨ref.connector, ref.mode_id, ref.properties⟩
  | some cm =>
    if cm.modes.any (fun m => some m.id = ref.mode_id) then
      .ok ⟨ref.connector, ref.mode_id, ref.properties⟩
    else
      match findSavedMode config ref.connector ref.mode_id with
      | none => .ok ⟨ref.connector, ref.mode_id, ref.properties⟩
      | some sm =>
        match cm.modes.find?
            (fun m => m.width = sm.width ∧ m.height = sm.height) with
        | some m => .ok ⟨ref.connector, some m.id, ref.properties⟩
        | none => .error ref.connector

/-- The `monitor` loop building `monitor_specs`. -/
def reconcileRefs (config current : Snapshot) : List MonitorRef →
    Except String (List MonitorSpec)
  | [] => .ok []
  | r :: rs => do
    let s ← reconcileRef config current r
    let ss ← reconcileRefs config current rs
    .ok (s :: ss)

/-- Body of the `lm` loop building `logical_monitors_dbus`. -/
def reconcileLM (config current : Snapshot) (lm : LogicalMonitor) :
    Except String LogicalMonitorSpec := do
  let specs ← reconcileRefs config current lm.monitors
  .ok ⟨lm.x, lm.y, lm.scale, lm.transform, lm.primary, specs⟩

/-- The `lm` loop of `_apply_config`. -/
def reconcileLMs (config current : Snapshot) : List LogicalMonitor →
    Except String (List LogicalMonitorSpec)
  | [] => .ok []
  | lm :: rest => do
    let s ← reconcileLM config current lm
    let ss ← reconcileLMs config current rest
    .ok (s :: ss)

/-- `_apply_config` given the freshly queried live state: check for missing
monitors, build the wire payload (with mode substitution), and send
`ApplyMonitorsConfig(current_state['serial'], method=1, ...,
config['properties'])`. -/
def applyConfig (config current : Snapshot) : ApplyResult :=
  let missing := missingMonitorsOf config current
  if missing.isEmpty then
    match reconcileLMs config current config.logical_monitors with
    | .error c => .noAlternative c
    | .ok lms => .applied ⟨current.serial, 1, lms, config.properties⟩
  else .missingMonitors missing

/-! ## Command layer (`load_config`, `delete_config`, `list_configs`)

The config directory is modelled as an association list from names to file
contents; remote calls and file accesses are recorded as effects.  The D-Bus
`ApplyMonitorsConfig` round-trip itself is modelled as succeeding (a remote
rejection would raise and exit non-zero; that path is outside the model). -/

/-- Contents of `<name>.json`: unreadable/invalid JSON or a parsed snapshot. -/
inductive ConfigFile where
  | corrupt
  | parsed (s : Snapshot)
deriving DecidableEq

/-- The `~/.config/displayctl` directory: one entry per stored name. -/
abbrev Store := List (String × ConfigFile)

/-- Externally visible side effects of a command. -/
inductive Effect where
  | remoteGetState
  | remoteApply (serial : Nat)
  | fileRead (name : String)
  | fileWrite (name : String)
  | fileDelete (name : String)
deriving DecidableEq

/-- Effects performed by `_apply_config`: always a fresh `GetCurrentState`
query; the `ApplyMonitorsConfig` call happens only when neither early
`return` was taken. -/
def applyConfigEffects (config current : Snapshot) : List Effect :=
  Effect.remoteGetState ::
    (match applyConfig config current with
     | .applied req => [Effect.remoteApply req.serial]
     | .missingMonitors _ => []
     | .noAlternative _ => [])

/-- `load_config(name, dry_run)`: returns the effect trace and the process
exit code.  `live` is the state the fresh `GetCurrentState` on the apply
path would return.  Note the apply path exits 0 even when `_apply_config`
returned early after a reconciliation failure: `_apply_config` only prints
and returns, it raises nothing. -/
def loadConfig (store : Store) (name : String) (dry_run : Bool)
    (live : Snapshot) : List Effect × Nat :=
  match store.lookup name with
  | none => ([], 1)
  | some .corrupt => ([.fileRead name], 1)
  | some (.parsed config) =>
    if dry_run then ([.fileRead name], 0)
    else ([.fileRead name] ++ applyConfigEffects config live, 0)

/-- `delete_config(name)`: missing file prints an error and exits 1 leaving
the store untouched; otherwise exactly the file `<name>.json` is unlinked. -/
def deleteConfig (store : Store) (name : String) : Store × List Effect × Nat :=
  if store.any (fun e => e.1 = name) then
    (store.filter (fun e => e.1 ≠ name), [.fileDelete name], 0)
  else (store, [], 1)

/-- Insertion of a name into a `sorted(...)` listing. -/
def insertSorted (a : String) : List String → List String
  | [] => [a]
  | b :: bs => if a ≤ b then a :: b :: bs else b :: insertSorted a bs

/-- `sorted(config_files)` over the stems. -/
def sortNames (l : List String) : List String := l.foldr insertSorted []

/-- `list_configs`: the names shown are the sorted stems of the `*.json`
files in the config directory. -/
def listConfigs (store : Store) : List String :=
  sortNames (store.map (·.1))

/-! ## Statement helpers -/

/-- The wire spec produced from an entry when its mode id is kept unchanged. -/
def asSpecRef (r : MonitorRef) : MonitorSpec := ⟨r.connector, r.mode_id, r.properties⟩

/-- The wire logical monitor produced when every entry is kept unchanged. -/
def asSpecLM (lm : LogicalMonitor) : LogicalMonitorSpec :=
  ⟨lm.x, lm.y, lm.scale, lm.transform, lm.primary, lm.monitors.map asSpecRef⟩

/-- The mode-id computation as claim C10 describes it: find the FIRST monitor
with a matching connector, take its first mode whose `is-current` property is
truthy, otherwise `none` (never an error).  Stated from the claim's words,
for comparison with `get_mode_for_connector`. -/
def claimedModeLookup (c : String) (mons : List Monitor) : Option String :=
  match mons.find? (fun m => m.connector = c) with
  | none => none
  | some m =>
    (m.modes.find? (fun md =>
      match md.properties.lookup "is-current" with
      | some v => v.truthy
      | none => false)).map (·.id)

/-! ## Concrete instances used by witnesses and counterexamples -/

/-- A 1920x1080 mode named `mA`, flagged current. -/
def w1Mode : Mode := ⟨"mA", 1920, 1080, 60, 1, [1], [("is-current", DVal.bool true)]⟩

/-- Saved snapshot referencing `HDMI-1` / `mA`. -/
def w1Config : Snapshot :=
  ⟨11, [⟨"HDMI-1", [w1Mode], []⟩],
   [⟨0, 0, 1, 0, true, [⟨"HDMI-1", some "mA", []⟩], []⟩], []⟩

/-- Live state still offering `mA` on `HDMI-1`, with a newer serial. -/
def w1Live : Snapshot := ⟨12, [⟨"HDMI-1", [w1Mode], []⟩], [], []⟩

/-- Raw reply whose capture yields `w1Cap`. -/
def w1RawMonitors : List RawMonitor :=
  [.valid "HDMI-1" [.valid "mA" 1920 1080 60 1 [1]
    (.valid [("is-current", DVal.bool true)])] (.valid [])]

/-- Raw logical monitors for `w1Cap`. -/
def w1RawLogical : List RawLogicalMonitor :=
  [.valid 0 0 1 0 true [.valid "HDMI-1"] (.valid [])]

/-- The snapshot captured from `w1RawMonitors`/`w1RawLogical` at serial 5. -/
def w1Cap : Snapshot :=
  ⟨5, [⟨"HDMI-1", [w1Mode], []⟩],
   [⟨0, 0, 1, 0, true, [⟨"HDMI-1", some "mA", []⟩], []⟩], []⟩

/-- Saved snapshot referencing a connector `DP-3` that the live state lacks. -/
def w2Config : Snapshot :=
  ⟨1, [], [⟨0, 0, 1, 0, true, [⟨"DP-3", some "x", []⟩], []⟩], []⟩

/-- Live state without `DP-3`. -/
def w2Live : Snapshot := ⟨2, [⟨"eDP-1", [], []⟩], [], []⟩

/-- Stored snapshot referencing the absent connector `DP-9`. -/
def c3Config : Snapshot :=
  ⟨7, [], [⟨0, 0, 1, 0, true, [⟨"DP-9", some "m1", []⟩], []⟩], []⟩

/-- Live state lacking `DP-9`: reconciliation must fail. -/
def c3Live : Snapshot := ⟨8, [⟨"eDP-1", [w1Mode], []⟩], [], []⟩

/-- Config directory holding the `work` snapshot. -/
def c3Store : Store := [("work", .parsed c3Config)]

/-- The saved 1920x1080 mode whose id went stale. -/
def w4OldMode : Mode := ⟨"old", 1920, 1080, 60, 1, [1], []⟩

/-- Saved snapshot referencing the stale id `old` on `HDMI-1`. -/
def w4Saved : Snapshot :=
  ⟨1, [⟨"HDMI-1", [w4OldMode], []⟩],
   [⟨0, 0, 1, 0, true, [⟨"HDMI-1", some "old", []⟩], []⟩], []⟩

/-- Live monitor offering `new`, same 1920x1080 resolution, different id. -/
def w4LiveMonitor : Monitor := ⟨"HDMI-1", [⟨"new", 1920, 1080, 75, 1, [1], []⟩], []⟩

/-- Live state where a same-resolution substitute exists. -/
def w4LiveOk : Snapshot := ⟨2, [w4LiveMonitor], [], []⟩

/-- Live monitor offering only 1280x720: no substitute for 1920x1080. -/
def w4BadMonitor : Monitor := ⟨"HDMI-1", [⟨"small", 1280, 720, 60, 1, [1], []⟩], []⟩

/-- Live state where no same-resolution substitute exists. -/
def w4LiveBad : Snapshot := ⟨3, [w4BadMonitor], [], []⟩

/-- An empty-layout snapshot. -/
def w5Config : Snapshot := ⟨1, [], [], []⟩

/-- An empty live state with a distinct serial. -/
def w5Live : Snapshot := ⟨9, [], [], []⟩

/-- Config directory with one readable and one corrupt entry. -/
def w6Store : Store := [("good", .parsed w5Config), ("bad", .corrupt)]

/-- Saved snapshot whose own monitor list is empty, so the stale id `gone`
has no saved mode on record. -/
def w9Config : Snapshot :=
  ⟨1, [], [⟨0, 0, 1, 0, true, [⟨"HDMI-1", some "gone", []⟩], []⟩], []⟩

/-- Live state where `HDMI-1` no longer offers a mode with id `gone`. -/
def w9Live : Snapshot :=
  ⟨2, [⟨"HDMI-1", [⟨"m", 1920, 1080, 60, 1, [1], []⟩], []⟩], [], []⟩

/-- Raw monitors whose single mode carries a malformed properties payload;
all required fields (connector, id, dimensions) are present. -/
def c8RawMonitors : List RawMonitor :=
  [.valid "HDMI-1" [.valid "m1" 1920 1080 60 1 [1] .malformed] (.valid [])]

/-- Raw logical monitors referencing the connector whose mode properties
were malformed. -/
def c8RawLogical : List RawLogicalMonitor :=
  [.valid 0 0 1 0 true [.valid "HDMI-1"] (.valid [])]

/-- Two parsed monitors sharing connector `HDMI-1`: the first has no mode
flagged current, the second does. -/
def c10Monitors : List Monitor :=
  [⟨"HDMI-1", [⟨"m1", 1920, 1080, 60, 1, [1], [("is-current", DVal.bool false)]⟩], []⟩,
   ⟨"HDMI-1", [⟨"m2", 1920, 1080, 75, 1, [1], [("is-current", DVal.bool true)]⟩], []⟩]

/-! ## Helper lemmas -/

theorem lookupMonitor_go_eq_some {c : String} {m : Monitor} :
    ∀ (mons : List Monitor) (acc : Option Monitor),
      mons.foldl (fun acc m => if m.connector = c then some m else acc) acc = some m →
      acc = some m ∨ (m ∈ mons ∧ m.connector = c) := by
  intro mons
  induction mons with
  | nil => intro acc h; exact Or.inl h
  | cons hd tl ih =>
    intro acc h
    simp only [List.foldl_cons] at h
    rcases ih _ h with h' | h'
    · by_cases hc : hd.connector = c
      · simp [hc] at h'
        subst h'
        exact Or.inr ⟨List.mem_cons_self _ _, hc⟩
      · simp [hc] at h'
        exact Or.inl h'
    · exact Or.inr ⟨List.mem_cons_of_mem _ h'.1, h'.2⟩

theorem lookupMonitor_mem {mons : List Monitor} {c : String} {m : Monitor}
    (h : lookupMonitor mons c = some m) : m ∈ mons ∧ m.connector = c := by
  rcases lookupMonitor_go_eq_some mons none h with h' | h'
  · exact absurd h' (by simp)
  · exact h'

theorem lookupMonitor_go_some_ne_none {c : String} :
    ∀ (mons : List Monitor) (m : Monitor),
      mons.foldl (fun acc m => if m.connector = c then some m else acc) (some m) ≠ none := by
  intro mons
  induction mons with
  | nil => intro m; simp
  | cons hd tl ih =>
    intro m
    simp only [List.foldl_cons]
    by_cases hc : hd.connector = c
    · simp only [hc, if_pos rfl]; exact ih hd
    · simp only [if_neg hc]; exact ih m

theorem lookupMonitor_go_ne_none {c : String} :
    ∀ (mons : List Monitor) (acc : Option Monitor),
      (∃ m ∈ mons, m.connector = c) →
      mons.foldl (fun acc m => if m.connector = c then some m else acc) acc ≠ none := by
  intro mons
  induction mons with
  | nil => intro acc h; simp at h
  | cons hd tl ih =>
    intro acc h
    simp only [List.foldl_cons]
    by_cases hc : hd.connector = c
    · simp only [hc, if_pos rfl]
      exact lookupMonitor_go_some_ne_none tl hd
    · simp only [if_neg hc]
      rcases h with ⟨m, hm, hmc⟩
      rcases List.mem_cons.mp hm with rfl | hm'
      · exact absurd hmc hc
      · exact ih acc ⟨m, hm', hmc⟩

theorem lookupMonitor_isSome {mons : List Monitor} {c : String}
    (h : ∃ m ∈ mons, m.connector = c) : ∃ cm, lookupMonitor mons c = some cm := by
  have := lookupMonitor_go_ne_none mons none h
  cases hl : lookupMonitor mons c with
  | none => exact absurd hl this
  | some cm => exact ⟨cm, rfl⟩

theorem connector_unique {mons : List Monitor}
    (hnd : (mons.map (·.connector)).Nodup) {m1 m2 : Monitor}
    (h1 : m1 ∈ mons) (h2 : m2 ∈ mons) (hc : m1.connector = m2.connector) :
    m1 = m2 :=
  List.inj_on_of_nodup_map hnd h1 h2 hc

theorem lookupMonitor_of_mem_nodup {mons : List Monitor} {m : Monitor}
    (hnd : (mons.map (·.connector)).Nodup) (hm : m ∈ mons) :
    lookupMonitor mons m.connector = some m := by
  rcases lookupMonitor_isSome ⟨m, hm, rfl⟩ with ⟨cm, hcm⟩
  rcases lookupMonitor_mem hcm with ⟨hcm_mem, hcm_conn⟩
  rw [hcm, connector_unique hnd hcm_mem hm hcm_conn]

theorem mem_missingMonitorsOf {config current : Snapshot} {c : String} :
    c ∈ missingMonitorsOf config current ↔
      (∃ lm ∈ config.logical_monitors, ∃ r ∈ lm.monitors, r.connector = c) ∧
      ∀ m ∈ current.monitors, m.connector ≠ c := by
  simp only [missingMonitorsOf, referencedConnectors, List.mem_filter,
    List.mem_dedup, List.mem_flatMap, List.mem_map, decide_eq_true_eq,
    List.any_eq_true, not_exists, not_and]

theorem missingMonitorsOf_eq_nil {config current : Snapshot} :
    missingMonitorsOf config current = [] ↔
      ∀ lm ∈ config.logical_monitors, ∀ r ∈ lm.monitors,
        ∃ m ∈ current.monitors, m.connector = r.connector := by
  constructor
  · intro h lm hlm r hr
    by_contra habs
    push_neg at habs
    have : r.connector ∈ missingMonitorsOf config current :=
      mem_missingMonitorsOf.mpr ⟨⟨lm, hlm, r, hr, rfl⟩, habs⟩
    rw [h] at this
    exact absurd this (List.not_mem_nil _)
  · intro h
    by_contra habs
    rcases List.exists_mem_of_ne_nil _ habs with ⟨c, hc⟩
    rcases mem_missingMonitorsOf.mp hc with ⟨⟨lm, hlm, r, hr, hrc⟩, habs'⟩
    rcases h lm hlm r hr with ⟨m, hm, hmc⟩
    exact habs' m hm (hrc ▸ hmc)

theorem findSavedMode_go_none {c : String} {mid : Option String} :
    ∀ (mons : List Monitor),
      (∀ cm ∈ mons, cm.connector = c → ∀ md ∈ cm.modes, ¬ some md.id = mid) →
      mons.foldl
        (fun acc cm =>
          if cm.connector = c then
            match cm.modes.find? (fun m => some m.id = mid) with
            | some m => some m
            | none => acc
          else acc)
        none = none := by
  intro mons
  induction mons with
  | nil => intro _; rfl
  | cons hd tl ih =>
    intro h
    simp only [List.foldl_cons]
    by_cases hc : hd.connector = c
    · have hfind : hd.modes.find? (fun m => decide (some m.id = mid)) = none := by
        rw [List.find?_eq_none]
        intro md hmd
        simpa using h hd (List.mem_cons_self _ _) hc md hmd
      simp only [hc, if_pos rfl, hfind]
      exact ih (fun cm hcm => h cm (List.mem_cons_of_mem _ hcm))
    · simp only [if_neg hc]
      exact ih (fun cm hcm => h cm (List.mem_cons_of_mem _ hcm))

theorem findSavedMode_eq_none {config : Snapshot} {c : String} {mid : Option String}
    (h : ∀ cm ∈ config.monitors, cm.connector = c → ∀ md ∈ cm.modes, ¬ some md.id = mid) :
    findSavedMode config c mid = none := by
  unfold findSavedMode
  split
  · exact findSavedMode_go_none config.monitors h
  · rfl

theorem findSavedMode_none_of_mid_none {config : Snapshot} {c : String} :
    findSavedMode config c none = none :=
  findSavedMode_eq_none (fun _ _ _ md _ => by simp)

/-- If an entry's mode id is present among the looked-up live monitor's
modes, the entry is kept unchanged. -/
theorem reconcileRef_keep {config current : Snapshot} {r : MonitorRef} {cm : Monitor}
    (hcm : lookupMonitor current.monitors r.connector = some cm)
    (hmode : cm.modes.any (fun m => some m.id = r.mode_id) = true) :
    reconcileRef config current r = .ok (asSpecRef r) := by
  unfold reconcileRef
  rw [hcm]
  simp only [hmode, if_pos rfl]
  rfl

theorem reconcileRefs_ok_of_forall {config current : Snapshot} :
    ∀ {refs : List MonitorRef},
      (∀ r ∈ refs, reconcileRef config current r = .ok (asSpecRef r)) →
      reconcileRefs config current refs = .ok (refs.map asSpecRef) := by
  intro refs
  induction refs with
  | nil => intro _; rfl
  | cons hd tl ih =>
    intro h
    have hhd := h hd (List.mem_cons_self _ _)
    have htl := ih (fun r hr => h r (List.mem_cons_of_mem _ hr))
    simp only [reconcileRefs, hhd, htl, List.map_cons]
    rfl

theorem reconcileLMs_ok_of_forall {config current : Snapshot} :
    ∀ {lms : List LogicalMonitor},
      (∀ lm ∈ lms, ∀ r ∈ lm.monitors, reconcileRef config current r = .ok (asSpecRef r)) →
      reconcileLMs config current lms = .ok (lms.map asSpecLM) := by
  intro lms
  induction lms with
  | nil => intro _; rfl
  | cons hd tl ih =>
    intro h
    have hhd : reconcileLM config current hd = .ok (asSpecLM hd) := by
      unfold reconcileLM
      rw [reconcileRefs_ok_of_forall (h hd (List.mem_cons_self _ _))]
      rfl
    have htl := ih (fun lm hlm => h lm (List.mem_cons_of_mem _ hlm))
    simp only [reconcileLMs, hhd, htl, List.map_cons]
    rfl

theorem reconcileRefs_ok_forall {config current : Snapshot} :
    ∀ {refs : List MonitorRef} {ss : List MonitorSpec},
      reconcileRefs config current refs = .ok ss →
      ∀ r ∈ refs, ∃ s, reconcileRef config current r = .ok s := by
  intro refs
  induction refs with
  | nil => intro ss _ r hr; exact absurd hr (List.not_mem_nil _)
  | cons hd tl ih =>
    intro ss h r hr
    simp only [reconcileRefs] at h
    cases hhd : reconcileRef config current hd with
    | error e => rw [hhd] at h; exact Except.noConfusion h
    | ok s =>
      rw [hhd] at h
      cases htl : reconcileRefs config current tl with
      | error e => rw [htl] at h; exact Except.noConfusion h
      | ok ss' =>
        rcases List.mem_cons.mp hr with rfl | hr'
        · exact ⟨s, hhd⟩
        · exact ih htl r hr'

theorem reconcileLMs_ok_forall {config current : Snapshot} :
    ∀ {lms : List LogicalMonitor} {ls : List LogicalMonitorSpec},
      reconcileLMs config current lms = .ok ls →
      ∀ lm ∈ lms, ∀ r ∈ lm.monitors, ∃ s, reconcileRef config current r = .ok s := by
  intro lms
  induction lms with
  | nil => intro ls _ lm hlm; exact absurd hlm (List.not_mem_nil _)
  | cons hd tl ih =>
    intro ls h lm hlm
    simp only [reconcileLMs] at h
    cases hhd : reconcileLM config current hd with
    | error e => rw [hhd] at h; exact Except.noConfusion h
    | ok s =>
      rw [hhd] at h
      cases htl : reconcileLMs config current tl with
      | error e => rw [htl] at h; exact Except.noConfusion h
      | ok ls' =>
        rcases List.mem_cons.mp hlm with rfl | hlm'
        · intro r hr
          unfold reconcileLM at hhd
          cases hrs : reconcileRefs config current lm.monitors with
          | error e => rw [hrs] at hhd; exact Except.noConfusion hhd
          | ok ss => exact reconcileRefs_ok_forall hrs r hr
        · exact ih htl lm hlm'

/-- A reconciliation error at any reachable entry prevents the apply call. -/
theorem applyConfig_ne_applied_of_ref_error {config current : Snapshot}
    {lm : LogicalMonitor} {r : MonitorRef} {e : String}
    (hlm : lm ∈ config.logical_monitors) (hr : r ∈ lm.monitors)
    (herr : reconcileRef config current r = .error e) :
    ∀ req, applyConfig config current ≠ .applied req := by
  intro req h
  unfold applyConfig at h
  by_cases hmiss : (missingMonitorsOf config current).isEmpty
  · simp only [hmiss, if_pos rfl] at h
    cases hrec : reconcileLMs config current config.logical_monitors with
    | error c => rw [hrec] at h; exact absurd h (by simp)
    | ok lms =>
      rcases reconcileLMs_ok_forall hrec lm hlm r hr with ⟨s, hs⟩
      rw [herr] at hs
      exact absurd hs (by simp)
  · rw [if_neg hmiss] at h
    exact ApplyResult.noConfusion h

theorem parseSpecs_ok_forall {mons : List Monitor} :
    ∀ {raws : List RawSpec} {refs : List MonitorRef},
      parseSpecs mons raws = .ok refs →
      ∀ r ∈ refs, get_mode_for_connector r.connector mons = .ok r.mode_id ∧
        r.properties = [] := by
  intro raws
  induction raws with
  | nil =>
    intro refs h r hr
    simp only [parseSpecs] at h
    cases h
    exact absurd hr (List.not_mem_nil _)
  | cons hd tl ih =>
    intro refs h r hr
    cases hd with
    | malformed => exact ih h r hr
    | valid c =>
      simp only [parseSpecs] at h
      cases hmid : get_mode_for_connector c mons with
      | error e => rw [hmid] at h; exact Except.noConfusion h
      | ok mid =>
        rw [hmid] at h
        cases htl : parseSpecs mons tl with
        | error e => rw [htl] at h; exact Except.noConfusion h
        | ok tail =>
          rw [htl] at h
          cases h
          rcases List.mem_cons.mp hr with rfl | hr'
          · exact ⟨hmid, rfl⟩
          · exact ih htl r hr'

theorem parseLogicalMonitors_ok_forall {mons : List Monitor} :
    ∀ {raws : List RawLogicalMonitor} {lms : List LogicalMonitor},
      parseLogicalMonitors mons raws = .ok lms →
      ∀ lm ∈ lms, ∀ r ∈ lm.monitors,
        get_mode_for_connector r.connector mons = .ok r.mode_id := by
  intro raws
  induction raws with
  | nil =>
    intro lms h lm hlm
    simp only [parseLogicalMonitors] at h
    cases h
    exact absurd hlm (List.not_mem_nil _)
  | cons hd tl ih =>
    intro lms h lm hlm
    simp only [parseLogicalMonitors] at h
    cases hhd : parseLogicalMonitor mons hd with
    | error e => rw [hhd] at h; exact Except.noConfusion h
    | ok lm0 =>
      rw [hhd] at h
      cases htl : parseLogicalMonitors mons tl with
      | error e => rw [htl] at h; exact Except.noConfusion h
      | ok lms' =>
        rw [htl] at h
        cases h
        rcases List.mem_cons.mp hlm with rfl | hlm'
        · intro r hr
          cases hd with
          | malformed => exact Except.noConfusion hhd
          | valid x y sc t pr specs p =>
            simp only [parseLogicalMonitor] at hhd
            cases hsp : parseSpecs mons specs with
            | error e => rw [hsp] at hhd; exact Except.noConfusion hhd
            | ok refs =>
              rw [hsp] at hhd
              cases hhd
              exact (parseSpecs_ok_forall hsp r hr).1
        · exact ih htl lm hlm'

theorem get_current_state_ok_inv {serial : Nat} {rawMonitors : List RawMonitor}
    {rawLogical : List RawLogicalMonitor} {rawProps : RawProps} {S : Snapshot}
    (h : get_current_state serial rawMonitors rawLogical rawProps = .ok S) :
    parseMonitors rawMonitors = .ok S.monitors ∧
    parseLogicalMonitors S.monitors rawLogical = .ok S.logical_monitors := by
  simp only [get_current_state] at h
  cases hm : parseMonitors rawMonitors with
  | error e => rw [hm] at h; exact Except.noConfusion h
  | ok mons =>
    rw [hm] at h
    replace h : (do
        let logical ← parseLogicalMonitors mons rawLogical
        let props ← dict_conversion rawProps
        Except.ok (⟨serial, mons, logical, props⟩ : Snapshot)) = Except.ok S := h
    cases hl : parseLogicalMonitors mons rawLogical with
    | error e => rw [hl] at h; exact Except.noConfusion h
    | ok lms =>
      rw [hl] at h
      cases hp : dict_conversion rawProps with
      | error e => rw [hp] at h; exact Except.noConfusion h
      | ok props =>
        rw [hp] at h
        cases h
        exact ⟨rfl, hl⟩

theorem findCurrentMode_ok_some {modes : List Mode} {i : String}
    (h : findCurrentMode modes = .ok (some i)) :
    ∃ md ∈ modes, md.id = i := by
  induction modes with
  | nil => simp only [findCurrentMode] at h; cases h
  | cons hd tl ih =>
    cases hk : hd.properties.lookup "is-current" with
    | none =>
      simp only [findCurrentMode, hk] at h
      exact Except.noConfusion h
    | some v =>
      simp only [findCurrentMode, hk] at h
      by_cases ht : v.truthy
      · rw [if_pos ht] at h
        cases h
        exact ⟨hd, List.mem_cons_self _ _, rfl⟩
      · rw [if_neg ht] at h
        rcases ih h with ⟨md, hmd, hid⟩
        exact ⟨md, List.mem_cons_of_mem _ hmd, hid⟩

theorem get_mode_for_connector_ok_some {c : String} {i : String} :
    ∀ {mons : List Monitor},
      get_mode_for_connector c mons = .ok (some i) →
      ∃ m ∈ mons, m.connector = c ∧ ∃ md ∈ m.modes, md.id = i := by
  intro mons
  induction mons with
  | nil => intro h; simp only [get_mode_for_connector] at h; cases h
  | cons hd tl ih =>
    intro h
    simp only [get_mode_for_connector] at h
    by_cases hc : hd.connector = c
    · rw [if_pos hc] at h
      cases hf : findCurrentMode hd.modes with
      | error e => rw [hf] at h; exact Except.noConfusion h
      | ok o =>
        rw [hf] at h
        cases o with
        | none =>
          rcases ih h with ⟨m, hm, hmc, hmd⟩
          exact ⟨m, List.mem_cons_of_mem _ hm, hmc, hmd⟩
        | some j =>
          cases h
          exact ⟨hd, List.mem_cons_self _ _, hc, findCurrentMode_ok_some hf⟩
    · rw [if_neg hc] at h
      rcases ih h with ⟨m, hm, hmc, hmd⟩
      exact ⟨m, List.mem_cons_of_mem _ hm, hmc, hmd⟩

theorem findCurrentMode_append (xs ys : List Mode) :
    findCurrentMode (xs ++ ys) =
      match findCurrentMode xs with
      | .error e => .error e
      | .ok (some i) => .ok (some i)
      | .ok none => findCurrentMode ys := by
  induction xs with
  | nil => simp [findCurrentMode]
  | cons hd tl ih =>
    cases hk : hd.properties.lookup "is-current" with
    | none => simp [findCurrentMode, hk]
    | some v =>
      by_cases ht : v.truthy
      · simp [findCurrentMode, hk, ht]
      · simp only [List.cons_append, findCurrentMode, hk, if_neg ht]
        exact ih

/-- `get_mode_for_connector` equals one flat scan of the concatenated mode
lists of all monitors with the matching connector. -/
theorem get_mode_for_connector_eq_flat_scan (c : String) :
    ∀ mons : List Monitor,
      get_mode_for_connector c mons =
        findCurrentMode ((mons.filter (fun m => m.connector = c)).flatMap (·.modes)) := by
  intro mons
  induction mons with
  | nil => rfl
  | cons hd tl ih =>
    by_cases hc : hd.connector = c
    · have hfilter : List.filter (fun m => decide (m.connector = c)) (hd :: tl)
          = hd :: List.filter (fun m => decide (m.connector = c)) tl := by
        simp [List.filter_cons, hc]
      cases hf : findCurrentMode hd.modes with
      | error e =>
        simp only [get_mode_for_connector, if_pos hc, hf, hfilter, List.flatMap_cons,
          findCurrentMode_append]
      | ok o =>
        cases o with
        | none =>
          simp only [get_mode_for_connector, if_pos hc, hf, hfilter, List.flatMap_cons,
            findCurrentMode_append]
          exact ih
        | some i =>
          simp only [get_mode_for_connector, if_pos hc, hf, hfilter, List.flatMap_cons,
            findCurrentMode_append]
    · have hfilter : List.filter (fun m => decide (m.connector = c)) (hd :: tl)
          = List.filter (fun m => decide (m.connector = c)) tl := by
        simp [List.filter_cons, hc]
      simp only [get_mode_for_connector, if_neg hc, hfilter]
      exact ih

/-- A stale entry with no saved mode on record is passed through unchanged. -/
theorem reconcileRef_passthrough {config current : Snapshot} {r : MonitorRef}
    {cm : Monitor}
    (hcm : lookupMonitor current.monitors r.connector = some cm)
    (hany : cm.modes.any (fun m => some m.id = r.mode_id) = false)
    (hsaved : findSavedMode config r.connector r.mode_id = none) :
    reconcileRef config current r = .ok (asSpecRef r) := by
  simp only [reconcileRef, hcm, hany, Bool.false_eq_true, if_false, hsaved, asSpecRef]

/-- If every referenced connector is present and every entry reconciles to
itself, `_apply_config` sends the identity request. -/
theorem applyConfig_identity {config current : Snapshot}
    (hpresent : ∀ lm ∈ config.logical_monitors, ∀ r ∈ lm.monitors,
      ∃ m ∈ current.monitors, m.connector = r.connector)
    (hkeep : ∀ lm ∈ config.logical_monitors, ∀ r ∈ lm.monitors,
      reconcileRef config current r = .ok (asSpecRef r)) :
    applyConfig config current =
      .applied ⟨current.serial, 1, config.logical_monitors.map asSpecLM,
        config.properties⟩ := by
  have hmiss : missingMonitorsOf config current = [] :=
    missingMonitorsOf_eq_nil.mpr hpresent
  have hrec := reconcileLMs_ok_of_forall hkeep
  unfold applyConfig
  rw [hmiss]
  simp only [List.isEmpty_nil, if_true, hrec]

theorem parseModes_error_of_mem {rms : List RawMode}
    (h : RawMode.malformed ∈ rms) : ∃ e, parseModes rms = .error e := by
  induction rms with
  | nil => exact absurd h (List.not_mem_nil _)
  | cons hd tl ih =>
    rcases List.mem_cons.mp h with rfl | h'
    · exact ⟨"ValueError", rfl⟩
    · cases hhd : parseMode hd with
      | error e => exact ⟨e, by simp only [parseModes, hhd]; rfl⟩
      | ok m =>
        rcases ih h' with ⟨e, he⟩
        exact ⟨e, by simp only [parseModes, hhd, he]; rfl⟩

theorem parseMonitor_error_of_mem {c : String} {rms : List RawMode} {p : RawProps}
    (h : RawMode.malformed ∈ rms) :
    ∃ e, parseMonitor (.valid c rms p) = .error e := by
  rcases parseModes_error_of_mem h with ⟨e, he⟩
  exact ⟨e, by simp only [parseMonitor, he]; rfl⟩

theorem parseMonitors_error_of_mem {raws : List RawMonitor}
    (h : RawMonitor.malformed ∈ raws) : ∃ e, parseMonitors raws = .error e := by
  induction raws with
  | nil => exact absurd h (List.not_mem_nil _)
  | cons hd tl ih =>
    rcases List.mem_cons.mp h with rfl | h'
    · exact ⟨"ValueError", rfl⟩
    · cases hhd : parseMonitor hd with
      | error e => exact ⟨e, by simp only [parseMonitors, hhd]; rfl⟩
      | ok m =>
        rcases ih h' with ⟨e, he⟩
        exact ⟨e, by simp only [parseMonitors, hhd, he]; rfl⟩

theorem mem_applyConfigEffects {config current : Snapshot} {e : Effect}
    (h : e ∈ applyConfigEffects config current) :
    e = .remoteGetState ∨ ∃ s, e = .remoteApply s := by
  unfold applyConfigEffects at h
  rcases List.mem_cons.mp h with rfl | h'
  · exact Or.inl rfl
  · cases happ : applyConfig config current with
    | applied req =>
      rw [happ] at h'
      rcases List.mem_singleton.mp h' with rfl
      exact Or.inr ⟨req.serial, rfl⟩
    | missingMonitors m => rw [happ] at h'; exact absurd h' (List.not_mem_nil _)
    | noAlternative c => rw [happ] at h'; exact absurd h' (List.not_mem_nil _)

theorem mem_insertSorted {a b : String} : ∀ {l : List String},
    a ∈ insertSorted b l ↔ a = b ∨ a ∈ l := by
  intro l
  induction l with
  | nil => simp [insertSorted]
  | cons hd tl ih =>
    unfold insertSorted
    by_cases hle : b ≤ hd
    · rw [if_pos hle]
      simp [List.mem_cons]
    · rw [if_neg hle]
      simp only [List.mem_cons, ih]
      tauto

theorem mem_sortNames {a : String} : ∀ {l : List String},
    a ∈ sortNames l ↔ a ∈ l := by
  intro l
  induction l with
  | nil => simp [sortNames]
  | cons hd tl ih =>
    simp only [sortNames, List.foldr_cons, mem_insertSorted, List.mem_cons]
    rw [show tl.foldr insertSorted [] = sortNames tl from rfl]
    rw [ih]

theorem mem_listConfigs {store : Store} {n : String} :
    n ∈ listConfigs store ↔ n ∈ store.map (·.1) := by
  unfold listConfigs
  exact mem_sortNames

/-! ## Claim theorems -/

/-- C1: if every `(connector, mode-id)` pair referenced by a logical monitor
in the saved snapshot exists verbatim among that connector's current modes in
the live state, `_apply_config` succeeds and sends the saved layout with every
entry unchanged (zero mode-id substitutions); in particular a snapshot whose
capture succeeded (with unambiguous connectors, all referenced connectors
present) reconciles against the unchanged live state with zero
substitutions. -/
theorem reconcile_identity_when_modes_present :
    (∀ config current : Snapshot,
      (∀ lm ∈ config.logical_monitors, ∀ r ∈ lm.monitors,
        ∃ cm, lookupMonitor current.monitors r.connector = some cm ∧
          cm.modes.any (fun m => some m.id = r.mode_id) = true) →
      applyConfig config current =
        .applied ⟨current.serial, 1, config.logical_monitors.map asSpecLM,
          config.properties⟩) ∧
    (∀ (serial : Nat) (rawMonitors : List RawMonitor)
        (rawLogical : List RawLogicalMonitor) (rawProps : RawProps) (S : Snapshot),
      get_current_state serial rawMonitors rawLogical rawProps = .ok S →
      (S.monitors.map (·.connector)).Nodup →
      (∀ lm ∈ S.logical_monitors, ∀ r ∈ lm.monitors,
        ∃ m ∈ S.monitors, m.connector = r.connector) →
      applyConfig S S =
        .applied ⟨S.serial, 1, S.logical_monitors.map asSpecLM, S.properties⟩) := by
  constructor
  · intro config current h
    apply applyConfig_identity
    · intro lm hlm r hr
      rcases h lm hlm r hr with ⟨cm, hcm, _⟩
      rcases lookupMonitor_mem hcm with ⟨hmem, hconn⟩
      exact ⟨cm, hmem, hconn⟩
    · intro lm hlm r hr
      rcases h lm hlm r hr with ⟨cm, hcm, hany⟩
      exact reconcileRef_keep hcm hany
  · intro serial rawMonitors rawLogical rawProps S hcap hnd hconn
    rcases get_current_state_ok_inv hcap with ⟨_, hl⟩
    apply applyConfig_identity hconn
    intro lm hlm r hr
    have hmid := parseLogicalMonitors_ok_forall hl lm hlm r hr
    cases hcase : r.mode_id with
    | none =>
      rcases hconn lm hlm r hr with ⟨m, hm, hmc⟩
      have hlk : lookupMonitor S.monitors r.connector = some m := by
        rw [← hmc]; exact lookupMonitor_of_mem_nodup hnd hm
      apply reconcileRef_passthrough hlk
      · rw [hcase]; simp
      · rw [hcase]; exact findSavedMode_none_of_mid_none
    | some i =>
      rw [hcase] at hmid
      rcases get_mode_for_connector_ok_some hmid with ⟨m, hm, hmc, md, hmd, hmdid⟩
      have hlk : lookupMonitor S.monitors r.connector = some m := by
        rw [← hmc]; exact lookupMonitor_of_mem_nodup hnd hm
      apply reconcileRef_keep hlk
      rw [List.any_eq_true]
      exact ⟨md, hmd, by rw [hcase, hmdid]; simp⟩

/-- Witness for C1 at concrete inputs: an unchanged-mode snapshot applies
verbatim, and a captured snapshot reconciles against itself verbatim. -/
theorem reconcile_identity_witness :
    applyConfig w1Config w1Live =
      .applied ⟨w1Live.serial, 1, w1Config.logical_monitors.map asSpecLM,
        w1Config.properties⟩ ∧
    applyConfig w1Cap w1Cap =
      .applied ⟨w1Cap.serial, 1, w1Cap.logical_monitors.map asSpecLM,
        w1Cap.properties⟩ :=
  ⟨reconcile_identity_when_modes_present.1 w1Config w1Live (by decide),
   reconcile_identity_when_modes_present.2 5 w1RawMonitors w1RawLogical
     (.valid []) w1Cap rfl (by decide) (by decide)⟩

/-- C2: if a connector referenced by a logical monitor in the saved snapshot
is absent from the live monitor list, `_apply_config` fails outright: the
missing connectors are exactly the referenced-but-absent ones and no
`ApplyMonitorsConfig` request is produced. -/
theorem missing_connector_fails_without_apply
    (config current : Snapshot) (lm : LogicalMonitor) (r : MonitorRef)
    (hlm : lm ∈ config.logical_monitors) (hr : r ∈ lm.monitors)
    (habs : ∀ m ∈ current.monitors, m.connector ≠ r.connector) :
    applyConfig config current = .missingMonitors (missingMonitorsOf config current) ∧
    r.connector ∈ missingMonitorsOf config current ∧
    (∀ c ∈ missingMonitorsOf config current,
      (∃ lm' ∈ config.logical_monitors, ∃ r' ∈ lm'.monitors, r'.connector = c) ∧
      ∀ m ∈ current.monitors, m.connector ≠ c) ∧
    (∀ req, applyConfig config current ≠ .applied req) := by
  have hmem : r.connector ∈ missingMonitorsOf config current :=
    mem_missingMonitorsOf.mpr ⟨⟨lm, hlm, r, hr, rfl⟩, habs⟩
  have hisEmpty : (missingMonitorsOf config current).isEmpty = false := by
    cases hL : missingMonitorsOf config current with
    | nil => rw [hL] at hmem; exact absurd hmem (List.not_mem_nil _)
    | cons hd tl => rfl
  have happ : applyConfig config current =
      .missingMonitors (missingMonitorsOf config current) := by
    unfold applyConfig
    simp only [hisEmpty, Bool.false_eq_true, if_false]
  refine ⟨happ, hmem, fun c hc => mem_missingMonitorsOf.mp hc, fun req h => ?_⟩
  rw [happ] at h
  exact ApplyResult.noConfusion h

/-- Witness for C2: the snapshot referencing the absent `DP-3` fails with
that connector reported missing. -/
theorem missing_connector_witness :
    applyConfig w2Config w2Live = .missingMonitors (missingMonitorsOf w2Config w2Live) ∧
    "DP-3" ∈ missingMonitorsOf w2Config w2Live ∧
    (∀ c ∈ missingMonitorsOf w2Config w2Live,
      (∃ lm' ∈ w2Config.logical_monitors, ∃ r' ∈ lm'.monitors, r'.connector = c) ∧
      ∀ m ∈ w2Live.monitors, m.connector ≠ c) ∧
    (∀ req, applyConfig w2Config w2Live ≠ .applied req) :=
  missing_connector_fails_without_apply w2Config w2Live
    ⟨0, 0, 1, 0, true, [⟨"DP-3", some "x", []⟩], []⟩ ⟨"DP-3", some "x", []⟩
    (by decide) (by decide) (by decide)

/-- C4: for a stale mode id whose saved mode is on record, a live mode with
exactly the saved width and height makes `_apply_config` substitute the first
such mode in the connector's mode-list order (refresh rate not consulted);
when no live mode matches the saved resolution the whole operation aborts and
`ApplyMonitorsConfig` is never called. -/
theorem stale_mode_substitution :
    (∀ (config current : Snapshot) (r : MonitorRef) (cm : Monitor) (sm : Mode),
      lookupMonitor current.monitors r.connector = some cm →
      cm.modes.any (fun m => some m.id = r.mode_id) = false →
      findSavedMode config r.connector r.mode_id = some sm →
      (∃ md ∈ cm.modes, md.width = sm.width ∧ md.height = sm.height) →
      ∃ md, cm.modes.find? (fun m => m.width = sm.width ∧ m.height = sm.height) = some md ∧
        md.width = sm.width ∧ md.height = sm.height ∧
        reconcileRef config current r = .ok ⟨r.connector, some md.id, r.properties⟩) ∧
    (∀ (config current : Snapshot) (lm : LogicalMonitor) (r : MonitorRef)
        (cm : Monitor) (sm : Mode),
      lm ∈ config.logical_monitors → r ∈ lm.monitors →
      lookupMonitor current.monitors r.connector = some cm →
      cm.modes.any (fun m => some m.id = r.mode_id) = false →
      findSavedMode config r.connector r.mode_id = some sm →
      (∀ md ∈ cm.modes, ¬(md.width = sm.width ∧ md.height = sm.height)) →
      reconcileRef config current r = .error r.connector ∧
      ∀ req, applyConfig config current ≠ .applied req) := by
  constructor
  · intro config current r cm sm hcm hany hsaved hex
    have hsome : (cm.modes.find?
        (fun m => m.width = sm.width ∧ m.height = sm.height)).isSome := by
      rw [List.find?_isSome]
      rcases hex with ⟨md, hmd, hw, hh⟩
      exact ⟨md, hmd, by simp [hw, hh]⟩
    rcases Option.isSome_iff_exists.mp hsome with ⟨md, hfind⟩
    have hp := List.find?_some hfind
    simp only [decide_eq_true_eq] at hp
    refine ⟨md, hfind, hp.1, hp.2, ?_⟩
    simp only [reconcileRef, hcm, hany, Bool.false_eq_true, if_false, hsaved, hfind]
  · intro config current lm r cm sm hlm hr hcm hany hsaved hnone
    have hfind : cm.modes.find?
        (fun m => m.width = sm.width ∧ m.height = sm.height) = none := by
      rw [List.find?_eq_none]
      intro md hmd
      simpa using hnone md hmd
    have herr : reconcileRef config current r = .error r.connector := by
      simp only [reconcileRef, hcm, hany, Bool.false_eq_true, if_false, hsaved, hfind]
    exact ⟨herr, applyConfig_ne_applied_of_ref_error hlm hr herr⟩

/-- Witness for C4: the stale id `old` is replaced by the same-resolution
live mode `new`; against a live state without a 1920x1080 mode the operation
aborts before the apply call. -/
theorem stale_mode_substitution_witness :
    (∃ md, w4LiveMonitor.modes.find?
        (fun m => m.width = w4OldMode.width ∧ m.height = w4OldMode.height) = some md ∧
      md.width = w4OldMode.width ∧ md.height = w4OldMode.height ∧
      reconcileRef w4Saved w4LiveOk ⟨"HDMI-1", some "old", []⟩ =
        .ok ⟨"HDMI-1", some md.id, []⟩) ∧
    (reconcileRef w4Saved w4LiveBad ⟨"HDMI-1", some "old", []⟩ = .error "HDMI-1" ∧
      ∀ req, applyConfig w4Saved w4LiveBad ≠ .applied req) :=
  ⟨stale_mode_substitution.1 w4Saved w4LiveOk ⟨"HDMI-1", some "old", []⟩
      w4LiveMonitor w4OldMode rfl (by decide) rfl (by decide),
   stale_mode_substitution.2 w4Saved w4LiveBad
      ⟨0, 0, 1, 0, true, [⟨"HDMI-1", some "old", []⟩], []⟩
      ⟨"HDMI-1", some "old", []⟩ w4BadMonitor w4OldMode
      (by decide) (by decide) rfl (by decide) rfl (by decide)⟩

theorem reconcileRef_serial_irrel (config current : Snapshot) (s : Nat)
    (r : MonitorRef) :
    reconcileRef { config with serial := s } current r = reconcileRef config current r := rfl

theorem reconcileRefs_serial_irrel (config current : Snapshot) (s : Nat) :
    ∀ refs : List MonitorRef,
      reconcileRefs { config with serial := s } current refs =
        reconcileRefs config current refs := by
  intro refs
  induction refs with
  | nil => rfl
  | cons r rs ih =>
    simp only [reconcileRefs, reconcileRef_serial_irrel, ih]

theorem reconcileLMs_serial_irrel (config current : Snapshot) (s : Nat) :
    ∀ lms : List LogicalMonitor,
      reconcileLMs { config with serial := s } current lms =
        reconcileLMs config current lms := by
  intro lms
  induction lms with
  | nil => rfl
  | cons lm rest ih =>
    simp only [reconcileLMs, reconcileLM, reconcileRefs_serial_irrel, ih]

/-- C5: the serial sent with `ApplyMonitorsConfig` is always the freshly
queried live state's serial, and the stored snapshot's own serial is never
consulted at all. -/
theorem apply_serial_from_live :
    (∀ (config current : Snapshot) (req : ApplyRequest),
      applyConfig config current = .applied req → req.serial = current.serial) ∧
    (∀ (config current : Snapshot) (s : Nat),
      applyConfig { config with serial := s } current = applyConfig config current) := by
  constructor
  · intro config current req h
    unfold applyConfig at h
    by_cases hmiss : (missingMonitorsOf config current).isEmpty
    · simp only [hmiss, if_pos rfl] at h
      cases hrec : reconcileLMs config current config.logical_monitors with
      | error c => rw [hrec] at h; exact ApplyResult.noConfusion h
      | ok lms =>
        rw [hrec] at h
        cases h
        rfl
    · rw [if_neg hmiss] at h
      exact ApplyResult.noConfusion h
  · intro config current s
    have hm : missingMonitorsOf { config with serial := s } current =
        missingMonitorsOf config current := rfl
    have hlm : ({ config with serial := s } : Snapshot).logical_monitors =
        config.logical_monitors := rfl
    have hpr : ({ config with serial := s } : Snapshot).properties =
        config.properties := rfl
    simp only [applyConfig, hm, hlm, hpr, reconcileLMs_serial_irrel]

/-- Witness for C5: the request produced for `w5Config` against `w5Live`
carries the live serial 9, not the stored serial 1. -/
theorem apply_serial_from_live_witness :
    applyConfig w5Config w5Live = .applied ⟨9, 1, [], []⟩ ∧
    (⟨9, 1, [], []⟩ : ApplyRequest).serial = w5Live.serial ∧
    applyConfig { w5Config with serial := 42 } w5Live = applyConfig w5Config w5Live :=
  ⟨rfl, apply_serial_from_live.1 w5Config w5Live ⟨9, 1, [], []⟩ rfl,
   apply_serial_from_live.2 w5Config w5Live 42⟩

/-- C9: a stale mode id for which the saved snapshot's own monitor list holds
no mode of that id on that connector is passed through unchanged into the
request entry; reconciliation neither substitutes nor fails at that entry. -/
theorem stale_mode_passthrough
    (config current : Snapshot) (r : MonitorRef) (cm : Monitor)
    (hcm : lookupMonitor current.monitors r.connector = some cm)
    (hstale : cm.modes.any (fun m => some m.id = r.mode_id) = false)
    (hnosaved : ∀ cmon ∈ config.monitors, cmon.connector = r.connector →
      ∀ md ∈ cmon.modes, ¬ some md.id = r.mode_id) :
    reconcileRef config current r = .ok ⟨r.connector, r.mode_id, r.properties⟩ :=
  reconcileRef_passthrough hcm hstale (findSavedMode_eq_none hnosaved)

/-- Witness for C9: the stale id `gone`, absent from the saved snapshot's own
monitor list, is passed through unchanged. -/
theorem stale_mode_passthrough_witness :
    reconcileRef w9Config w9Live ⟨"HDMI-1", some "gone", []⟩ =
      .ok ⟨"HDMI-1", some "gone", []⟩ :=
  stale_mode_passthrough w9Config w9Live ⟨"HDMI-1", some "gone", []⟩
    ⟨"HDMI-1", [⟨"m", 1920, 1080, 60, 1, [1], []⟩], []⟩
    rfl (by decide) (by decide)

/-- C3 (code bug): reconciliation failure during `load` does NOT exit
non-zero.  `_apply_config` prints "Configuration cannot be applied." and
`return`s without raising, so `load_config` falls through to the success
message and the process exits 0.  Evaluated at a stored snapshot referencing
the absent connector `DP-9`: reconciliation fails (`missingMonitors`), no
apply call is issued, yet the exit code is 0, contradicting the claimed
non-zero exit on every failure path. -/
theorem load_reconcile_failure_exits_zero :
    applyConfig c3Config c3Live = .missingMonitors ["DP-9"] ∧
    loadConfig c3Store "work" false c3Live =
      ([.fileRead "work", .remoteGetState], 0) :=
  ⟨by decide, rfl⟩

/-- C6: loading an existing readable snapshot with `--dry-run` only reads the
file — no remote call of either kind is issued; and no load invocation ever
writes or deletes a stored file. -/
theorem load_effects_readonly :
    (∀ (store : Store) (name : String) (cfg : Snapshot) (live : Snapshot),
      store.lookup name = some (.parsed cfg) →
      loadConfig store name true live = ([.fileRead name], 0) ∧
      Effect.remoteGetState ∉ (loadConfig store name true live).1 ∧
      (∀ s, Effect.remoteApply s ∉ (loadConfig store name true live).1)) ∧
    (∀ (store : Store) (name : String) (dr : Bool) (live : Snapshot) (n : String),
      Effect.fileWrite n ∉ (loadConfig store name dr live).1 ∧
      Effect.fileDelete n ∉ (loadConfig store name dr live).1) := by
  constructor
  · intro store name cfg live hlk
    have heq : loadConfig store name true live = ([.fileRead name], 0) := by
      unfold loadConfig
      rw [hlk]
      rfl
    refine ⟨heq, ?_, ?_⟩
    · rw [heq]; simp
    · intro s; rw [heq]; simp
  · intro store name dr live n
    unfold loadConfig
    cases hlk : store.lookup name with
    | none => simp
    | some cf =>
      cases cf with
      | corrupt => simp
      | parsed config =>
        cases dr with
        | true => simp
        | false =>
          simp only [Bool.false_eq_true, if_false, List.cons_append, List.nil_append]
          constructor
          · intro h
            rcases List.mem_cons.mp h with h' | h'
            · exact Effect.noConfusion h'
            · rcases mem_applyConfigEffects h' with h'' | ⟨s, h''⟩
              · exact Effect.noConfusion h''
              · exact Effect.noConfusion h''
          · intro h
            rcases List.mem_cons.mp h with h' | h'
            · exact Effect.noConfusion h'
            · rcases mem_applyConfigEffects h' with h'' | ⟨s, h''⟩
              · exact Effect.noConfusion h''
              · exact Effect.noConfusion h''

/-- Witness for C6 at the concrete store `w6Store`: dry-run of `good` only
reads the file, and a non-dry-run load writes and deletes nothing. -/
theorem load_effects_readonly_witness :
    (loadConfig w6Store "good" true w5Live = ([.fileRead "good"], 0) ∧
      Effect.remoteGetState ∉ (loadConfig w6Store "good" true w5Live).1 ∧
      (∀ s, Effect.remoteApply s ∉ (loadConfig w6Store "good" true w5Live).1)) ∧
    (Effect.fileWrite "good" ∉ (loadConfig w6Store "good" false w5Live).1 ∧
      Effect.fileDelete "good" ∉ (loadConfig w6Store "good" false w5Live).1) :=
  ⟨load_effects_readonly.1 w6Store "good" w5Config w5Live rfl,
   load_effects_readonly.2 w6Store "good" false w5Live "good"⟩

/-- C7: deleting a name with no stored file exits non-zero and removes
nothing; deleting a stored name removes exactly that file, so a subsequent
listing no longer shows the name while every other name is still listed. -/
theorem delete_config_spec (store : Store) (name : String) :
    (name ∉ store.map (·.1) → deleteConfig store name = (store, [], 1)) ∧
    (name ∈ store.map (·.1) →
      (deleteConfig store name).2.2 = 0 ∧
      (deleteConfig store name).2.1 = [.fileDelete name] ∧
      name ∉ listConfigs (deleteConfig store name).1 ∧
      ∀ n, n ≠ name →
        (n ∈ listConfigs (deleteConfig store name).1 ↔ n ∈ listConfigs store)) := by
  have hany : (store.any (fun e => e.1 = name) = true) ↔ name ∈ store.map (·.1) := by
    rw [List.any_eq_true]
    simp only [List.mem_map, decide_eq_true_eq]
  constructor
  · intro habs
    unfold deleteConfig
    rw [if_neg (fun h => habs (hany.mp h))]
  · intro hmem
    have hdel : deleteConfig store name =
        (store.filter (fun e => e.1 ≠ name), [.fileDelete name], 0) := by
      unfold deleteConfig
      rw [if_pos (hany.mpr hmem)]
    refine ⟨by rw [hdel], by rw [hdel], ?_, ?_⟩
    · rw [hdel]
      simp only [mem_listConfigs, List.mem_map, List.mem_filter]
      rintro ⟨e, ⟨_, he⟩, rfl⟩
      simp at he
    · intro n hn
      rw [hdel]
      simp only [mem_listConfigs, List.mem_map, List.mem_filter]
      constructor
      · rintro ⟨e, ⟨he, _⟩, rfl⟩
        exact ⟨e, he, rfl⟩
      · rintro ⟨e, he, rfl⟩
        exact ⟨e, ⟨he, by simpa using hn⟩, rfl⟩

/-- Witness for C7 at `w6Store`: deleting the absent `missing` changes
nothing and exits 1; deleting `bad` removes exactly it, and `good` is still
listed. -/
theorem delete_config_spec_witness :
    deleteConfig w6Store "missing" = (w6Store, [], 1) ∧
    (deleteConfig w6Store "bad").2.2 = 0 ∧
    "bad" ∉ listConfigs (deleteConfig w6Store "bad").1 ∧
    ("good" ∈ listConfigs (deleteConfig w6Store "bad").1 ↔
      "good" ∈ listConfigs w6Store) :=
  ⟨(delete_config_spec w6Store "missing").1 (by decide),
   ((delete_config_spec w6Store "bad").2 (by decide)).1,
   ((delete_config_spec w6Store "bad").2 (by decide)).2.2.1,
   ((delete_config_spec w6Store "bad").2 (by decide)).2.2.2 "good" (by decide)⟩

/-- Counterexample for C8: a mode whose properties payload is malformed (all
required fields present) does NOT leave the capture succeeding.  The payload
is emptied by `_safe_dict_conversion` — the monitor parse succeeds with empty
mode properties — but `get_mode_for_connector` then looks up `is-current` in
the emptied dictionary and the resulting `KeyError` fails the whole capture. -/
theorem capture_malformed_mode_props_fails :
    parseMonitors c8RawMonitors =
      .ok [⟨"HDMI-1", [⟨"m1", 1920, 1080, 60, 1, [1], []⟩], []⟩] ∧
    get_current_state 1 c8RawMonitors c8RawLogical (.valid []) =
      .error "KeyError" :=
  ⟨rfl, rfl⟩

/-- C8 as amended: malformed property payloads for a mode, monitor or
logical monitor are emptied at parse time rather than failing the parse;
absence of required fields (a malformed monitor or mode tuple) is a hard
failure of the whole parse; BUT a malformed monitor-spec inside a logical
monitor is skipped with a warning rather than failing the capture, and a
mode with an emptied properties dictionary fails the capture with a
`KeyError` as soon as the current-mode scan consults it. -/
theorem capture_props_tolerance_amended :
    (∀ (i : String) (w h : Nat) (rr ps : Rat) (ss : List Rat),
      parseMode (.valid i w h rr ps ss .malformed) = .ok ⟨i, w, h, rr, ps, ss, []⟩) ∧
    (∀ (c : String) (rms : List RawMode),
      parseMonitor (.valid c rms .malformed) = parseMonitor (.valid c rms (.valid []))) ∧
    (∀ (mons : List Monitor) (x y : Int) (sc : Rat) (t : Nat) (pr : Bool)
        (specs : List RawSpec),
      parseLogicalMonitor mons (.valid x y sc t pr specs .malformed) =
        parseLogicalMonitor mons (.valid x y sc t pr specs (.valid []))) ∧
    (∀ raws : List RawMonitor, RawMonitor.malformed ∈ raws →
      ∃ e, parseMonitors raws = .error e) ∧
    (∀ (c : String) (rms : List RawMode) (p : RawProps), RawMode.malformed ∈ rms →
      ∃ e, parseMonitor (.valid c rms p) = .error e) ∧
    (∀ (mons : List Monitor) (rest : List RawSpec),
      parseSpecs mons (.malformed :: rest) = parseSpecs mons rest) ∧
    (∀ (c i : String) (w h : Nat) (rr ps : Rat) (ss : List Rat) (ms : List Mode)
        (p : Props) (mons : List Monitor),
      get_mode_for_connector c (⟨c, ⟨i, w, h, rr, ps, ss, []⟩ :: ms, p⟩ :: mons) =
        .error "KeyError") := by
  refine ⟨fun i w h rr ps ss => rfl, fun c rms => rfl,
    fun mons x y sc t pr specs => rfl,
    fun raws h => parseMonitors_error_of_mem h,
    fun c rms p h => parseMonitor_error_of_mem h,
    fun mons rest => rfl, ?_⟩
  intro c i w h rr ps ss ms p mons
  simp [get_mode_for_connector, findCurrentMode]

/-- Witness for the amended C8: hard parse failures at concrete malformed
monitor and mode tuples. -/
theorem capture_props_tolerance_witness :
    (∃ e, parseMonitors [RawMonitor.malformed] = .error e) ∧
    (∃ e, parseMonitor (.valid "HDMI-1" [RawMode.malformed] (.valid [])) = .error e) :=
  ⟨capture_props_tolerance_amended.2.2.2.1 [RawMonitor.malformed] (by decide),
   capture_props_tolerance_amended.2.2.2.2.1 "HDMI-1" [RawMode.malformed]
     (.valid []) (by decide)⟩

/-- Counterexample for C10: with two parsed monitors sharing connector
`HDMI-1`, where the FIRST has no mode flagged current, the claim's described
algorithm (first matching monitor only) yields `None`, but
`get_mode_for_connector` scans past the first matching monitor and returns
`m2` from the second — and capture records `m2` for the entry. -/
theorem mode_lookup_scan_counterexample :
    claimedModeLookup "HDMI-1" c10Monitors = none ∧
    get_mode_for_connector "HDMI-1" c10Monitors = .ok (some "m2") ∧
    parseSpecs c10Monitors [.valid "HDMI-1"] = .ok [⟨"HDMI-1", some "m2", []⟩] :=
  ⟨rfl, rfl, rfl⟩

/-- C10 as amended: the mode-id recorded for a logical-monitor entry is
computed by scanning the ENTIRE monitor list — it equals one flat
current-mode scan over the concatenated mode lists of all monitors with the
matching connector (first truthy `is-current` wins; a consulted mode whose
properties lack the key fails the capture; `none` only when the whole scan
finds no current mode) — and `_parse_logical_monitors` records exactly that
result as the entry's `mode_id`. -/
theorem mode_lookup_scan_amended :
    (∀ (c : String) (mons : List Monitor),
      get_mode_for_connector c mons =
        findCurrentMode
          ((mons.filter (fun m => m.connector = c)).flatMap (·.modes))) ∧
    (∀ (mons : List Monitor) (c : String) (rest : List RawSpec)
        (refs : List MonitorRef),
      parseSpecs mons (.valid c :: rest) = .ok refs →
      ∃ mid tail, get_mode_for_connector c mons = .ok mid ∧
        refs = ⟨c, mid, []⟩ :: tail ∧ parseSpecs mons rest = .ok tail) := by
  constructor
  · exact fun c mons => get_mode_for_connector_eq_flat_scan c mons
  · intro mons c rest refs h
    simp only [parseSpecs] at h
    cases hmid : get_mode_for_connector c mons with
    | error e => rw [hmid] at h; exact Except.noConfusion h
    | ok mid =>
      rw [hmid] at h
      cases htl : parseSpecs mons rest with
      | error e => rw [htl] at h; exact Except.noConfusion h
      | ok tail =>
        rw [htl] at h
        cases h
        exact ⟨mid, tail, rfl, rfl, rfl⟩

/-- Witness for the amended C10 at the two-monitor list: the parsed entry
records the scan result `m2`. -/
theorem mode_lookup_scan_witness :
    ∃ mid tail, get_mode_for_connector "HDMI-1" c10Monitors = .ok mid ∧
      ([⟨"HDMI-1", some "m2", []⟩] : List MonitorRef) = ⟨"HDMI-1", mid, []⟩ :: tail ∧
      parseSpecs c10Monitors [] = .ok tail :=
  mode_lookup_scan_amended.2 c10Monitors "HDMI-1" []
    [⟨"HDMI-1", some "m2", []⟩] rfl

end Displayctl
